import Mathlib

/- Verification development for the chess_bot repository.

   The repository carries several parallel drafts of the same chess core:

   * board.rs        - a self-contained mailbox engine (Board, move generation,
                       make_move, perft); the only draft with a complete
                       generate_moves / make_move / perft pipeline.
   * defs.rs, game_state.rs, fen_parser.rs, position.rs, bitboard.rs,
     chess_move.rs, generators/ - a newer bitboard-based draft, partially
     implemented (its move generator has no castling and its Position has
     todo!() stubs for do_move/undo_move).

   Each Rust module is embedded below in a Lean namespace of the same name.

   Modelling conventions:
   * Rust u64 bit operations are modelled on Nat; `!x` (u64 complement) is
     `x ^^^ (2^64 - 1)`, and `x << n` carries an explicit `% 2^64` where the
     source type is u64.
   * The mailbox array `[Option<Piece>; 64]` of board.rs is modelled as a
     packed natural number with one 4-bit field per square (select/update
     semantics proved in SquareArray.getD_set_self / getD_set_ne below).
   * Signed `isize` coordinate arithmetic of board.rs is modelled in Nat with
     a constant bias: a delta d is stored as d + 2 (knight/king tables) or
     d + 1 (sliding directions, pawn direction), and bound checks are shifted
     accordingly; comments at each site give the correspondence.
   * Rust while loops over ray coordinates use an explicit fuel argument of 8,
     which exceeds the longest possible ray on an 8x8 board.
   * Rust panics (unwrap on an empty square, out-of-range indexing) are
     modelled by total functions returning an unchanged or default value;
     each site is reachable only on inputs on which the source panics.
-/

set_option maxRecDepth 10000

namespace ChessBot

/- Shared model of Rust's str::split_whitespace: split on runs of whitespace,
   dropping empty pieces. (String.split of core Lean does not reduce in the
   kernel, so the splitter is defined structurally on the character list.) -/
def splitWhitespaceAux : List Char → List Char → List (List Char)
  | [], acc => if acc.isEmpty then [] else [acc.reverse]
  | c :: rest, acc =>
    if c.isWhitespace then
      if acc.isEmpty then splitWhitespaceAux rest []
      else acc.reverse :: splitWhitespaceAux rest []
    else splitWhitespaceAux rest (c :: acc)

def splitWhitespace (s : String) : List (List Char) :=
  splitWhitespaceAux s.toList []

/- Model of Rust's str::split(sep): keeps empty pieces. -/
def splitOnChar (sep : Char) : List Char → List Char → List (List Char)
  | [], acc => [acc.reverse]
  | c :: rest, acc =>
    if c = sep then acc.reverse :: splitOnChar sep rest []
    else splitOnChar sep rest (c :: acc)

/- Model of u64::trailing_zeros (64 for input 0). -/
def trailingZerosAux : Nat → Nat → Nat
  | 0, _ => 0
  | fuel+1, n => if n % 2 = 1 then 0 else 1 + trailingZerosAux fuel (n / 2)

def trailing_zeros (n : Nat) : Nat := trailingZerosAux 64 n

/- ===================== board.rs ===================== -/

namespace board

inductive Color where
  | White
  | Black
deriving DecidableEq

inductive PieceType where
  | Pawn
  | Knight
  | Bishop
  | Rook
  | Queen
  | King
deriving DecidableEq

structure Piece where
  color : Color
  piece_type : PieceType
deriving DecidableEq

/- The mailbox `[Option<Piece>; 64]` is modelled as a packed Nat, 4 bits per
   square: 0 encodes an empty square, 1..6 the White pieces Pawn..King and
   7..12 the Black pieces Pawn..King. -/
def pieceCode : Option Piece → Nat
  | none => 0
  | some ⟨.White, .Pawn⟩ => 1
  | some ⟨.White, .Knight⟩ => 2
  | some ⟨.White, .Bishop⟩ => 3
  | some ⟨.White, .Rook⟩ => 4
  | some ⟨.White, .Queen⟩ => 5
  | some ⟨.White, .King⟩ => 6
  | some ⟨.Black, .Pawn⟩ => 7
  | some ⟨.Black, .Knight⟩ => 8
  | some ⟨.Black, .Bishop⟩ => 9
  | some ⟨.Black, .Rook⟩ => 10
  | some ⟨.Black, .Queen⟩ => 11
  | some ⟨.Black, .King⟩ => 12

def pieceDecode : Nat → Option Piece
  | 1 => some ⟨.White, .Pawn⟩
  | 2 => some ⟨.White, .Knight⟩
  | 3 => some ⟨.White, .Bishop⟩
  | 4 => some ⟨.White, .Rook⟩
  | 5 => some ⟨.White, .Queen⟩
  | 6 => some ⟨.White, .King⟩
  | 7 => some ⟨.Black, .Pawn⟩
  | 8 => some ⟨.Black, .Knight⟩
  | 9 => some ⟨.Black, .Bishop⟩
  | 10 => some ⟨.Black, .Rook⟩
  | 11 => some ⟨.Black, .Queen⟩
  | 12 => some ⟨.Black, .King⟩
  | _ => none

abbrev SquareArray : Type := Nat

def nibbleMaskAll : Nat := 2 ^ 256 - 1

/- Array store: clear the 4-bit field of square i, then install the code. -/
def SquareArray.set (a : SquareArray) (i : Nat) (v : Option Piece) : SquareArray :=
  (a &&& (nibbleMaskAll ^^^ (15 <<< (4 * i)))) ||| (pieceCode v <<< (4 * i))

/- Array select: extract and decode the 4-bit field of square i. -/
def SquareArray.getD (a : SquareArray) (i : Nat) (_d : Option Piece) : Option Piece :=
  pieceDecode ((a >>> (4 * i)) &&& 15)

structure Board where
  squares : SquareArray
  turn : Color
  castling_rights : String
  en_passant_target : Option Nat
deriving DecidableEq

structure Move where
  from' : Nat
  to' : Nat
  promotion : Option PieceType
deriving DecidableEq

def Move.new (f t : Nat) : Move := ⟨f, t, none⟩

def Move.with_promotion (f t : Nat) (p : PieceType) : Move := ⟨f, t, some p⟩

def opposite : Color → Color
  | .White => .Black
  | .Black => .White

/- self.squares.iter().enumerate() -/
def enumSquares (a : SquareArray) : List (Nat × Option Piece) :=
  (List.range 64).map (fun i => (i, a.getD i none))

def index_to_coord (index : Nat) : Nat × Nat := (index / 8, index % 8)

def coord_to_index (rank file : Nat) : Nat := rank * 8 + file

/- The knight jump table [(-2,-1),(-2,1),(-1,-2),(-1,2),(1,-2),(1,2),(2,-1),(2,1)],
   each isize delta d stored as the Nat d + 2. -/
def knightJumps : List (Nat × Nat) :=
  [(0,1),(0,3),(1,0),(1,4),(3,0),(3,4),(4,1),(4,3)]

/- The king direction table [(-1,-1),(-1,0),(-1,1),(0,-1),(0,1),(1,-1),(1,0),(1,1)],
   each isize delta d stored as the Nat d + 2. -/
def kingDirs : List (Nat × Nat) :=
  [(1,1),(1,2),(1,3),(2,1),(2,3),(3,1),(3,2),(3,3)]

/- to_rank = rank + (d - 2) is in [0, 8) iff rank + d is in [2, 10). -/
def Board.gen_knight_moves (b : Board) (index : Nat) : List Move :=
  let rf := index_to_coord index
  knightJumps.filterMap (fun d =>
    let to_rank := rf.1 + d.1
    let to_file := rf.2 + d.2
    if 2 ≤ to_rank ∧ to_rank < 10 ∧ 2 ≤ to_file ∧ to_file < 10 then
      let to_index := coord_to_index (to_rank - 2) (to_file - 2)
      match b.squares.getD to_index none with
      | some piece => if piece.color ≠ b.turn then some (Move.new index to_index) else none
      | none => some (Move.new index to_index)
    else none)

def Board.gen_king_moves (b : Board) (index : Nat) : List Move :=
  let rf := index_to_coord index
  kingDirs.filterMap (fun d =>
    let to_rank := rf.1 + d.1
    let to_file := rf.2 + d.2
    if 2 ≤ to_rank ∧ to_rank < 10 ∧ 2 ≤ to_file ∧ to_file < 10 then
      let to_index := coord_to_index (to_rank - 2) (to_file - 2)
      match b.squares.getD to_index none with
      | some piece => if piece.color ≠ b.turn then some (Move.new index to_index) else none
      | none => some (Move.new index to_index)
    else none)

/- The while loop of gen_sliding_moves. Coordinates inside the walk carry a
   +8 bias (in-bounds means 8 <= c < 16); direction deltas carry a +1 bias
   (0, 1, 2 encode -1, 0, +1). The fuel 8 strictly exceeds the longest ray. -/
def Board.slide (b : Board) (index : Nat) (dr df : Nat) : Nat → Nat → Nat → List Move
  | 0, _, _ => []
  | fuel+1, to_rank, to_file =>
    if 8 ≤ to_rank ∧ to_rank < 16 ∧ 8 ≤ to_file ∧ to_file < 16 then
      let to_index := coord_to_index (to_rank - 8) (to_file - 8)
      match b.squares.getD to_index none with
      | some piece => if piece.color ≠ b.turn then [Move.new index to_index] else []
      | none =>
        Move.new index to_index :: b.slide index dr df fuel (to_rank + dr - 1) (to_file + df - 1)
    else []

def Board.gen_sliding_moves (b : Board) (index : Nat) (directions : List (Nat × Nat)) :
    List Move :=
  let rf := index_to_coord index
  directions.flatMap (fun d =>
    b.slide index d.1 d.2 8 (rf.1 + 8 + d.1 - 1) (rf.2 + 8 + d.2 - 1))

/- [(-1,0),(1,0),(0,-1),(0,1)] with the +1 bias. -/
def rookDirs : List (Nat × Nat) := [(0,1),(2,1),(1,0),(1,2)]

/- [(-1,-1),(-1,1),(1,-1),(1,1)] with the +1 bias. -/
def bishopDirs : List (Nat × Nat) := [(0,0),(0,2),(2,0),(2,2)]

/- All eight directions with the +1 bias. -/
def queenDirs : List (Nat × Nat) :=
  [(0,0),(0,1),(0,2),(1,0),(1,2),(2,0),(2,1),(2,2)]

def promoKinds : List PieceType := [.Queen, .Rook, .Bishop, .Knight]

/- Pawn direction +1 (White) / -1 (Black), stored with a +1 bias as
   dir1 = 2 / 0; forward_rank carries a +1 bias, double_forward_rank a +2
   bias. (start_rank, promotion_rank) = (1, 7) for White, (6, 0) for Black. -/
def Board.gen_pawn_moves (b : Board) (index : Nat) : List Move :=
  match b.squares.getD index none with
  | none => []
  | some piece =>
    let rf := index_to_coord index
    let rank := rf.1
    let file := rf.2
    let dsp : Nat × Nat × Nat :=
      match piece.color with
      | .White => (2, 1, 7)
      | .Black => (0, 6, 0)
    let dir1 := dsp.1
    let start_rank := dsp.2.1
    let promotion_rank := dsp.2.2
    let forward_rank := rank + dir1
    let fwd : List Move :=
      if 1 ≤ forward_rank ∧ forward_rank < 9 then
        let forward_index := coord_to_index (forward_rank - 1) file
        if b.squares.getD forward_index none = none then
          if forward_rank - 1 = promotion_rank then
            promoKinds.map (fun p => Move.with_promotion index forward_index p)
          else [Move.new index forward_index]
        else []
      else []
    let dbl : List Move :=
      if rank = start_rank then
        let double_forward_rank := rank + 2 * dir1
        let double_forward_index := coord_to_index (double_forward_rank - 2) file
        if b.squares.getD double_forward_index none = none ∧
            b.squares.getD (coord_to_index (forward_rank - 1) file) none = none then
          [Move.new index double_forward_index]
        else []
      else []
    let caps : List Move :=
      [0, 2].flatMap (fun delta_file =>
        let capture_file := file + delta_file
        if 1 ≤ capture_file ∧ capture_file < 9 then
          let capture_rank := rank + dir1
          if 1 ≤ capture_rank ∧ capture_rank < 9 then
            let capture_index := coord_to_index (capture_rank - 1) (capture_file - 1)
            match b.squares.getD capture_index none with
            | some target_piece =>
              if target_piece.color ≠ piece.color then
                if capture_rank - 1 = promotion_rank then
                  promoKinds.map (fun p => Move.with_promotion index capture_index p)
                else [Move.new index capture_index]
              else []
            | none =>
              match b.en_passant_target with
              | some ep_target =>
                if ep_target = capture_index then [Move.new index capture_index] else []
              | none => []
          else []
        else [])
    fwd ++ dbl ++ caps

def Board.generate_pseudo_moves (b : Board) : List Move :=
  (enumSquares b.squares).flatMap (fun is =>
    match is.2 with
    | some piece =>
      if piece.color = b.turn then
        match piece.piece_type with
        | .Pawn => b.gen_pawn_moves is.1
        | .Knight => b.gen_knight_moves is.1
        | .Bishop => b.gen_sliding_moves is.1 bishopDirs
        | .Rook => b.gen_sliding_moves is.1 rookDirs
        | .Queen => b.gen_sliding_moves is.1 queenDirs
        | .King => b.gen_king_moves is.1
      else []
    | none => [])

/- make_move; the None branch models the panic of
   self.squares[mv.from].take().unwrap() on an empty from-square. -/
def Board.make_move (b : Board) (mv : Move) : Board :=
  match b.squares.getD mv.from' none with
  | none => b
  | some piece =>
    let squares1 := b.squares.set mv.from' none
    let squares2 :=
      if piece.piece_type = PieceType.Pawn ∧ mv.to' = b.en_passant_target.getD 64 then
        let trf := index_to_coord mv.to'
        let captured_pawn_rank :=
          match b.turn with
          | .White => trf.1 - 1
          | .Black => trf.1 + 1
        squares1.set (coord_to_index captured_pawn_rank trf.2) none
      else squares1
    let ep : Option Nat :=
      if piece.piece_type = PieceType.Pawn then
        let from_rank := (index_to_coord mv.from').1
        let to_rank := (index_to_coord mv.to').1
        if (piece.color = Color.White ∧ from_rank = 1 ∧ to_rank = 3)
            ∨ (piece.color = Color.Black ∧ from_rank = 6 ∧ to_rank = 4) then
          some (coord_to_index ((from_rank + to_rank) / 2) (mv.to' % 8))
        else none
      else none
    let squares3 :=
      match mv.promotion with
      | some promo => squares2.set mv.to' (some ⟨piece.color, promo⟩)
      | none => squares2.set mv.to' (some piece)
    { squares := squares3, turn := opposite b.turn,
      castling_rights := b.castling_rights, en_passant_target := ep }

def Board.find_king (b : Board) (color : Color) : Option Nat :=
  (enumSquares b.squares).findSome? (fun is =>
    match is.2 with
    | some piece =>
      if piece.piece_type = PieceType.King ∧ piece.color = color then some is.1 else none
    | none => none)

def Board.is_king_attacked (b : Board) (color : Color) : Bool :=
  match b.find_king color with
  | none => false
  | some king_pos => (b.generate_pseudo_moves).any (fun m => m.to' = king_pos)

def Board.generate_moves (b : Board) : List Move :=
  (b.generate_pseudo_moves).filter (fun mv => !((b.make_move mv).is_king_attacked b.turn))

def perftAux : Nat → Board → Nat
  | 0, _ => 1
  | d+1, b => (b.generate_moves).foldl (fun nodes m => nodes + perftAux d (b.make_move m)) 0

def Board.perft (b : Board) (depth : Nat) : Nat := perftAux depth b

def pieceTypeOfChar : Char → Option PieceType
  | 'p' => some .Pawn
  | 'n' => some .Knight
  | 'b' => some .Bishop
  | 'r' => some .Rook
  | 'q' => some .Queen
  | 'k' => some .King
  | _ => none

def parsePiecePlacement : List Char → Nat → Nat → SquareArray →
    Except String SquareArray
  | [], _, _, squares => .ok squares
  | c :: rest, rank, file, squares =>
    if c = '/' then parsePiecePlacement rest (rank - 1) 0 squares
    else if c.isDigit then parsePiecePlacement rest rank (file + (c.toNat - '0'.toNat)) squares
    else
      let color := if c.isUpper then Color.White else Color.Black
      match pieceTypeOfChar c.toLower with
      | some piece_type =>
        parsePiecePlacement rest rank (file + 1)
          (squares.set (rank * 8 + file) (some ⟨color, piece_type⟩))
      | none => .error "FEN invalido: pieza desconocida"

/- board.rs from_fen: only the first four fields are interpreted; the length
   check is parts.len() < 2. Fields that the source indexes out of range on
   short inputs (parts[2], parts[3]) are modelled with a default. -/
def Board.from_fen (fen : String) : Except String Board := do
  let parts := splitWhitespace fen
  if parts.length < 2 then
    throw "FEN invalido: menos de 2 partes"
  let squares ← parsePiecePlacement (parts.getD 0 []) 7 0 0
  let turn ←
    match parts.getD 1 [] with
    | ['w'] => pure Color.White
    | ['b'] => pure Color.Black
    | _ => throw "FEN invalido: turno desconocido"
  let castling_rights : String := ⟨parts.getD 2 []⟩
  let ep_part := parts.getD 3 []
  let en_passant_target : Option Nat :=
    if ep_part ≠ ['-'] then
      let file_char := ep_part.getD 0 'a'
      let rank_char := ep_part.getD 1 '1'
      some ((rank_char.toNat - '1'.toNat) * 8 + (file_char.toNat - 'a'.toNat))
    else none
  return { squares := squares, turn := turn,
           castling_rights := castling_rights, en_passant_target := en_passant_target }

/- Board::initial_position = from_fen(START).unwrap(). -/
def initial_position : Board :=
  (Board.from_fen "rnbqkbnr/pppppppp/8/8/8/8/PPPPPPPP/RNBQKBNR w KQkq - 0 1").toOption.getD
    ⟨0, .White, "", none⟩

def index_to_coord_algebraic (index : Nat) : String :=
  let rank := index / 8
  let file := index % 8
  String.mk [Char.ofNat ('a'.toNat + file), Char.ofNat ('1'.toNat + rank)]

end board

/- ===================== chess_move.rs ===================== -/

namespace chess_move

inductive MoveType where
  | Capture
  | EnPassantCapture
  | KnightPromotion
  | BishopPromotion
  | RookPromotion
  | QueenPromotion
  | KnightPromotionCapture
  | BishopPromotionCapture
  | RookPromotionCapture
  | QueenPromotionCapture
  | Quiet
  | CastleKing
  | CastleQueen
  | Null
deriving DecidableEq

structure Move where
  from' : Nat
  to' : Nat
  kind : MoveType
deriving DecidableEq

namespace Direction

def UP : Int := 8

def DOWN : Int := -8

def RIGHT : Int := 1

def LEFT : Int := -1

def UP_RIGHT : Int := UP + RIGHT

def UP_LEFT : Int := UP + LEFT

def DOWN_RIGHT : Int := DOWN + RIGHT

def DOWN_LEFT : Int := DOWN + LEFT

end Direction

/- BitboardIterator of bitboard.rs: repeatedly take the lowest set bit.
   A u64 has at most 64 set bits, hence fuel 64. -/
def bitboardSquares : Nat → Nat → List Nat
  | 0, _ => []
  | fuel+1, bb =>
    if bb = 0 then []
    else trailing_zeros bb :: bitboardSquares fuel (bb &&& (bb - 1))

def MoveExtractor.extract_moves (from' : Nat) (bb : Nat) (kind : MoveType) : List Move :=
  (bitboardSquares 64 bb).map (fun square => ⟨from', square, kind⟩)

end chess_move

/- ===================== bitboard.rs ===================== -/

namespace bitboard

abbrev BitBoard : Type := Nat

def U64_MAX : Nat := 2 ^ 64 - 1

/- u64 complement !x. -/
def not64 (x : Nat) : Nat := x ^^^ U64_MAX

/- u64 left shift (truncating). -/
def shl64 (x n : Nat) : Nat := (x <<< n) % 2 ^ 64

def EMPTY : BitBoard := 0

def RANK_1 : BitBoard := 0xFF

def RANK_2 : BitBoard := RANK_1 <<< 8

def RANK_3 : BitBoard := RANK_2 <<< 8

def RANK_4 : BitBoard := RANK_3 <<< 8

def RANK_5 : BitBoard := RANK_4 <<< 8

def RANK_6 : BitBoard := RANK_5 <<< 8

def RANK_7 : BitBoard := RANK_6 <<< 8

def RANK_8 : BitBoard := RANK_7 <<< 8

def FILE_A : BitBoard := 0x0101010101010101

def FILE_B : BitBoard := FILE_A <<< 1

def FILE_C : BitBoard := FILE_A <<< 2

def FILE_D : BitBoard := FILE_A <<< 3

def FILE_E : BitBoard := FILE_A <<< 4

def FILE_F : BitBoard := FILE_A <<< 5

def FILE_G : BitBoard := FILE_A <<< 6

def FILE_H : BitBoard := FILE_A <<< 7

/- BitBoardMethods::shift, with the match arms in source order; the final two
   arms are the catch-all ranges i8::MIN..=0 and the positive rest. -/
def shift (bb : BitBoard) (direction : Int) : BitBoard :=
  if direction = chess_move.Direction.UP then shl64 bb 8
  else if direction = chess_move.Direction.DOWN then bb >>> 8
  else if direction = chess_move.Direction.LEFT then (bb &&& not64 FILE_A) >>> 1
  else if direction = chess_move.Direction.RIGHT then shl64 (bb &&& not64 FILE_H) 1
  else if direction = chess_move.Direction.UP_LEFT then shl64 (bb &&& not64 FILE_A) 7
  else if direction = chess_move.Direction.UP_RIGHT then shl64 (bb &&& not64 FILE_H) 9
  else if direction = chess_move.Direction.DOWN_LEFT then (bb &&& not64 FILE_A) >>> 9
  else if direction = chess_move.Direction.DOWN_RIGHT then (bb &&& not64 FILE_H) >>> 7
  else if direction ≤ 0 then bb >>> (-direction).toNat
  else shl64 bb direction.toNat

end bitboard

/- ===================== defs.rs ===================== -/

namespace defs

abbrev CastlingRights : Type := Nat

inductive PieceType where
  | Pawn
  | Knight
  | Bishop
  | Rook
  | Queen
  | King
  | None
deriving DecidableEq

def PieceType.from_char (c : Char) : PieceType :=
  match c.toUpper with
  | 'K' => .King
  | 'Q' => .Queen
  | 'R' => .Rook
  | 'B' => .Bishop
  | 'N' => .Knight
  | 'P' => .Pawn
  | _ => .None

/- *self as usize (the enum discriminant). -/
def PieceType.to_index : PieceType → Nat
  | .Pawn => 0
  | .Knight => 1
  | .Bishop => 2
  | .Rook => 3
  | .Queen => 4
  | .King => 5
  | .None => 6

inductive Color where
  | White
  | Black
deriving DecidableEq

def Color.opposite : Color → Color
  | .White => .Black
  | .Black => .White

def Color.to_index : Color → Nat
  | .White => 0
  | .Black => 1

structure Piece where
  piece_type : PieceType
  color : Color
deriving DecidableEq

def Piece.EMPTY : Piece := ⟨.None, .White⟩

def Piece.WHITE_PAWN : Piece := ⟨.Pawn, .White⟩

def Piece.WHITE_ROOK : Piece := ⟨.Rook, .White⟩

def Piece.new (piece_type : PieceType) (color : Color) : Piece := ⟨piece_type, color⟩

def Piece.from_char (c : Char) : Piece :=
  Piece.new (PieceType.from_char c) (if c.isUpper then .White else .Black)

def Piece.get_piece_type (p : Piece) : PieceType := p.piece_type

def Piece.get_color (p : Piece) : Color := p.color

namespace Castling

def NO_CASTLING : CastlingRights := 0

def WHITE_KING_SIDE : CastlingRights := 1

def WHITE_QUEEN_SIDE : CastlingRights := 2

def BLACK_KING_SIDE : CastlingRights := 4

def BLACK_QUEEN_SIDE : CastlingRights := 8

def ANY_CASTLING : CastlingRights := 15

end Castling

inductive Square where
  | Empty
  | Occupied (piece : Piece)
deriving DecidableEq

/- The 64-variant enum Squares (A1..H8) is modelled by its discriminant. -/
abbrev Squares : Type := Nat

/- unsafe transmute from the index. -/
def Squares.from_index (index : Nat) : Squares := index

def Squares.from_file_rank (file rank : Nat) : Squares :=
  Squares.from_index (rank * 8 + file)

def Squares.to_index (s : Squares) : Nat := s

/- char::to_digit(10).unwrap(), defined on digit characters. -/
def charDigit (c : Char) : Nat := c.toNat - '0'.toNat

def Squares.from_algebraic (algebraic : String) : Squares :=
  let cs := algebraic.toList
  let file := (cs.getD 0 'a').toNat - 'a'.toNat
  let rank := charDigit (cs.getD 1 '0') - 1
  Squares.from_file_rank file rank

/- to_algebraic exactly as written in defs.rs: rank = index / 8 + 1,
   rank character (rank + b'1'), file character (file + b'A'). -/
def Squares.to_algebraic (sq : Squares) : String :=
  let index := sq
  let rank := index / 8 + 1
  let file := index % 8
  String.mk [Char.ofNat (file + 'A'.toNat), Char.ofNat (rank + '1'.toNat)]

end defs

/- ===================== game_state.rs ===================== -/

namespace game_state

structure GameState where
  side_to_move : defs.Color
  castling : defs.CastlingRights
  halfmove_clock : Nat
  en_passant : Option Nat
  fullmove_number : Nat
deriving DecidableEq

def GameState.default : GameState :=
  ⟨.White, defs.Castling.ANY_CASTLING, 0, none, 1⟩

def GameState.new (side_to_move : defs.Color) (castling : defs.CastlingRights)
    (halfmove_clock : Nat) (en_passant : Option Nat) (fullmove_number : Nat) : GameState :=
  ⟨side_to_move, castling, halfmove_clock, en_passant, fullmove_number⟩

end game_state

/- ===================== fen_parser.rs ===================== -/

namespace fen

inductive FenError where
  | InvalidFormat
  | InvalidRankLength
  | InvalidFileLength
  | InvalidTurn
deriving DecidableEq

/-- Modelled from the spec: fen_parser.rs returns its result through a
`Board::new(pieces, state, black_occupancy, white_occupancy)` constructor of a
bitboard-backed Board whose definition is not under src/ (only this caller and
its getters appear); per the spec's data model it just packages the parsed
piece array, game state and the two per-color occupancy bitboards. -/
structure Board where
  pieces : List defs.Square
  state : game_state.GameState
  black_occupancy : Nat
  white_occupancy : Nat
deriving DecidableEq

def Board.new (pieces : List defs.Square) (state : game_state.GameState)
    (black_occupancy white_occupancy : Nat) : Board :=
  ⟨pieces, state, black_occupancy, white_occupancy⟩

/- The inner character loop of parse_piece_positions for one rank. -/
def parseRankChars : List Char → Nat → Nat → List defs.Square →
    Except FenError (List defs.Square)
  | [], file_index, _, positions =>
    if file_index ≠ 8 then .error .InvalidFileLength else .ok positions
  | c :: rest, file_index, rank_index, positions =>
    if c.isDigit then
      parseRankChars rest (file_index + (c.toNat - '0'.toNat)) rank_index positions
    else
      let piece := defs.Piece.from_char c
      let square := (defs.Squares.from_file_rank file_index rank_index).to_index
      parseRankChars rest (file_index + 1) rank_index (positions.set square (.Occupied piece))

def parseRanks : List (List Char) → Nat → List defs.Square →
    Except FenError (List defs.Square)
  | [], _, positions => .ok positions
  | r :: rs, i, positions => do
    let positions ← parseRankChars r 0 (7 - i) positions
    parseRanks rs (i + 1) positions

def parse_piece_positions (pieces_fen : List Char) : Except FenError (List defs.Square) :=
  let ranks := splitOnChar '/' pieces_fen []
  if ranks.length ≠ 8 then .error .InvalidRankLength
  else parseRanks ranks 0 (List.replicate 64 .Empty)

def parse_turn (turn_fen : List Char) : Except FenError defs.Color :=
  if turn_fen.length ≠ 1 then .error .InvalidTurn
  else if turn_fen = ['w'] then .ok .White
  else if turn_fen = ['b'] then .ok .Black
  else .error .InvalidTurn

/- parse_castling_rights: '-' and unknown characters return NO_CASTLING
   immediately, discarding rights already accumulated. -/
def parseCastlingChars : List Char → defs.CastlingRights → defs.CastlingRights
  | [], acc => acc
  | c :: rest, acc =>
    if c = 'K' then parseCastlingChars rest (acc ||| defs.Castling.WHITE_KING_SIDE)
    else if c = 'Q' then parseCastlingChars rest (acc ||| defs.Castling.WHITE_QUEEN_SIDE)
    else if c = 'k' then parseCastlingChars rest (acc ||| defs.Castling.BLACK_KING_SIDE)
    else if c = 'q' then parseCastlingChars rest (acc ||| defs.Castling.BLACK_QUEEN_SIDE)
    else defs.Castling.NO_CASTLING

def parse_castling_rights (castling_fen : List Char) : defs.CastlingRights :=
  parseCastlingChars castling_fen defs.Castling.NO_CASTLING

def parse_en_passant (en_passant_fen : List Char) : Option Nat :=
  if en_passant_fen = ['-'] then none
  else some ((defs.Squares.from_algebraic ⟨en_passant_fen⟩).to_index)

/- str::parse::<uN>: digits only, within the bound. -/
def parseDigits : List Char → Nat → Option Nat
  | [], acc => some acc
  | c :: rest, acc =>
    if c.isDigit then parseDigits rest (acc * 10 + (c.toNat - '0'.toNat))
    else none

def parseBounded (cs : List Char) (bound : Nat) : Option Nat :=
  if cs.isEmpty then none
  else match parseDigits cs 0 with
    | some n => if n ≤ bound then some n else none
    | none => none

/- The per-color occupancy fold of parse_fen. -/
def occupancy (color : defs.Color) (pieces : List defs.Square) : Nat :=
  pieces.enum.foldl (fun acc is =>
    match is.2 with
    | .Occupied piece => if piece.color = color then acc ||| (1 <<< is.1) else acc
    | .Empty => acc) 0

def parse_fen (fen : String) : Except FenError Board :=
  let parts := splitWhitespace fen
  if parts.length ≠ 6 then .error .InvalidFormat
  else do
  let pieces ← parse_piece_positions (parts.getD 0 [])
  let white_ocupancy_bitboard := occupancy .White pieces
  let black_ocupancy_bitboard := occupancy .Black pieces
  let side_to_move ← parse_turn (parts.getD 1 [])
  let castling_rights := parse_castling_rights (parts.getD 2 [])
  let en_passant := parse_en_passant (parts.getD 3 [])
  let halfmove_clock ←
    match parseBounded (parts.getD 4 []) 255 with
    | some n => pure n
    | none => throw FenError.InvalidFormat
  let fullmove_counter ←
    match parseBounded (parts.getD 5 []) 65535 with
    | some n => pure n
    | none => throw FenError.InvalidFormat
  let state := game_state.GameState.new side_to_move castling_rights halfmove_clock
    en_passant fullmove_counter
  return Board.new pieces state black_ocupancy_bitboard white_ocupancy_bitboard

end fen

/- ===================== position.rs ===================== -/

namespace position

structure Position where
  board : List defs.Piece
  by_type_bitboards : List Nat
  by_color_bitboards : List Nat
  all_pieces_bitboard : Nat
  state : game_state.GameState
deriving DecidableEq

def Position.new (state : game_state.GameState) : Position :=
  ⟨List.replicate 64 defs.Piece.EMPTY, List.replicate 6 0, List.replicate 2 0, 0, state⟩

def Position.add_piece (p : Position) (piece : defs.Piece) (square : defs.Squares) :
    Position :=
  let index := square.to_index
  let mask := 1 <<< index
  { p with
    by_type_bitboards := p.by_type_bitboards.set piece.get_piece_type.to_index
      ((p.by_type_bitboards.getD piece.get_piece_type.to_index 0) ||| mask),
    by_color_bitboards := p.by_color_bitboards.set piece.get_color.to_index
      ((p.by_color_bitboards.getD piece.get_color.to_index 0) ||| mask),
    all_pieces_bitboard := p.all_pieces_bitboard ||| mask,
    board := p.board.set index piece }

/- remove_piece exactly as written: mask = !(1 << index) and the three
   bitboards are XORed with that (inverted) mask. -/
def Position.remove_piece (p : Position) (square : defs.Squares) : Position :=
  let index := square.to_index
  let mask := bitboard.not64 (1 <<< index)
  let piece := p.board.getD index defs.Piece.EMPTY
  { p with
    by_type_bitboards := p.by_type_bitboards.set piece.get_piece_type.to_index
      ((p.by_type_bitboards.getD piece.get_piece_type.to_index 0) ^^^ mask),
    by_color_bitboards := p.by_color_bitboards.set piece.get_color.to_index
      ((p.by_color_bitboards.getD piece.get_color.to_index 0) ^^^ mask),
    all_pieces_bitboard := p.all_pieces_bitboard ^^^ mask,
    board := p.board.set index defs.Piece.EMPTY }

def Position.get_side_to_move (p : Position) : defs.Color := p.state.side_to_move

def Position.get_all_pieces (p : Position) : Nat := p.all_pieces_bitboard

def Position.get_pieces_type (p : Position) (piece_type : defs.PieceType) : Nat :=
  p.by_type_bitboards.getD piece_type.to_index 0

def Position.get_pieces_color (p : Position) (color : defs.Color) : Nat :=
  p.by_color_bitboards.getD color.to_index 0

def Position.get_pieces_color_type (p : Position) (color : defs.Color)
    (piece_type : defs.PieceType) : Nat :=
  p.get_pieces_color color &&& p.get_pieces_type piece_type

end position

/- ===================== generators/sliding_moves.rs ===================== -/

namespace sliding_moves

/- SlidingLookup::generate_rook_moves: the full rank and file cross of the
   square, with no blocker information. SlidingLookup::new precomputes
   rooks[i] = generate_rook_moves(i), so a table lookup below is a direct
   call. -/
def generate_rook_moves (square : Nat) : Nat :=
  let rank := square >>> 3
  let file := square &&& 7
  let vertical := (List.range 8).foldl (fun attacks r =>
    if r ≠ rank then attacks ||| (1 <<< (r * 8 + file)) else attacks) 0
  (List.range 8).foldl (fun attacks f =>
    if f ≠ file then attacks ||| (1 <<< (rank * 8 + f)) else attacks) vertical

def get_rook_moves (square : Nat) : Nat := generate_rook_moves square

def generate_rook_quiet_moves (p : position.Position) (rook : Nat) :
    List chess_move.Move :=
  let empty_squares := bitboard.not64 p.get_all_pieces
  let rook_moves := get_rook_moves rook &&& empty_squares
  chess_move.MoveExtractor.extract_moves rook rook_moves .Quiet

def generate_rook_attacks (p : position.Position) (rook : Nat) :
    List chess_move.Move :=
  let color := p.get_side_to_move
  let their_king := p.get_pieces_color_type color.opposite .King
  let captures := p.get_pieces_color color.opposite &&& bitboard.not64 their_king
  let rook_captures := get_rook_moves rook &&& captures
  chess_move.MoveExtractor.extract_moves rook rook_captures .Capture

end sliding_moves

/- ===================== concrete fixtures ===================== -/

/- r3k2r/8/8/8/8/8/8/R3K2R w KQkq - 0 1: every castling precondition of the
   spec holds for White on both wings. -/
def castle_position : board.Board :=
  (board.Board.from_fen "r3k2r/8/8/8/8/8/8/R3K2R w KQkq - 0 1").toOption.getD
    ⟨0, .White, "", none⟩

/- The same position with Black to move, used to probe which squares Black
   attacks (board.rs has no is_square_attacked; its attack notion is the
   pseudo-move probe used by is_king_attacked). -/
def castle_position_black : board.Board :=
  { castle_position with turn := .Black }

/- r3k2r/7r/8/8/8/8/8/R3K2R b KQkq - 0 1: Black's rook on h7 can capture the
   White rook on its h1 corner. -/
def rook_capture_position : board.Board :=
  (board.Board.from_fen "r3k2r/7r/8/8/8/8/8/R3K2R b KQkq - 0 1").toOption.getD
    ⟨0, .White, "", none⟩

/- The named en-passant scenario of the spec. -/
def ep_position : board.Board :=
  (board.Board.from_fen "rnbqkbnr/ppp1pppp/8/3pP3/8/8/PPPP1PPP/RNBQKBNR w KQkq d6 0 1").toOption.getD
    ⟨0, .White, "", none⟩

/- A Position with a White rook on d4 (27) and a White pawn on d2 (11). -/
def rook_blocker_position : position.Position :=
  ((position.Position.new game_state.GameState.default).add_piece
    defs.Piece.WHITE_ROOK 27).add_piece defs.Piece.WHITE_PAWN 11

def empty_start_position : position.Position :=
  position.Position.new game_state.GameState.default

def added_pawn_position : position.Position :=
  empty_start_position.add_piece defs.Piece.WHITE_PAWN 0

def removed_pawn_position : position.Position :=
  added_pawn_position.remove_piece 0

namespace board

/- The coordinates visited by the while loop of gen_sliding_moves, with the
   same +8 coordinate bias, +1 delta bias and fuel as Board.slide. -/
def raySquares (dr df : Nat) : Nat → Nat → Nat → List Nat
  | 0, _, _ => []
  | fuel+1, r, f =>
    if 8 ≤ r ∧ r < 16 ∧ 8 ≤ f ∧ f < 16 then
      coord_to_index (r - 8) (f - 8) :: raySquares dr df fuel (r + dr - 1) (f + df - 1)
    else []

/- Written from the spec's words (ray walking with blocker halting): along a
   ray, the moves are exactly the empty squares strictly before the first
   occupied square, plus that first occupied square iff it holds an enemy
   piece. -/
def raySpecMoves (b : Board) (index dr df fuel r f : Nat) : List Move :=
  let squares := raySquares dr df fuel r f
  let emptyPre := squares.takeWhile (fun t => (b.squares.getD t none).isNone)
  let rest := squares.dropWhile (fun t => (b.squares.getD t none).isNone)
  emptyPre.map (Move.new index) ++
    match rest with
    | [] => []
    | t :: _ =>
      match b.squares.getD t none with
      | some piece => if piece.color ≠ b.turn then [Move.new index t] else []
      | none => []

end board

/- ===================== theorems ===================== -/

/-- Claim C2: for every position and every move returned by generate_moves,
applying the move to a clone of the position yields a position in which the
king of the side that moved is not attacked by the opposite color (the
is_king_attacked probe, which generates the opponent's pseudo-moves, answers
false). This is exactly the legality filter of Board::generate_moves. -/
theorem generate_moves_never_leaves_king_attacked
    (b : board.Board) (mv : board.Move) (h : mv ∈ b.generate_moves) :
    (b.make_move mv).is_king_attacked b.turn = false := by
  unfold board.Board.generate_moves at h
  have h2 := (List.mem_filter.mp h).2
  simpa using h2

/-- Witness for C2: e2-e4 (squares 12 to 28) is among the legal moves of the
standard opening position, and applying it leaves the White king unattacked. -/
theorem generate_moves_never_leaves_king_attacked_witness :
    (board.initial_position.make_move (board.Move.new 12 28)).is_king_attacked
      board.initial_position.turn = false := by
  have h : board.Move.new 12 28 ∈ board.initial_position.generate_moves := by decide!
  exact generate_moves_never_leaves_king_attacked board.initial_position
    (board.Move.new 12 28) h

/-- Claim C5 (code bug): board.rs's make_move never touches castling_rights at
all — proved in general for every board and move, and exhibited on the spec's
own scenarios: after the White king moves e1-e2 from
r3k2r/8/8/8/8/8/8/R3K2R w KQkq - 0 1 the rights are still "KQkq" (the claim
requires White's two rights cleared), and after Black's rook captures on h1
from r3k2r/7r/8/8/8/8/8/R3K2R b KQkq - 0 1 the rights are still "KQkq" (the
claim requires the White king-side right cleared). -/
theorem make_move_never_updates_castling_rights :
    (∀ (b : board.Board) (mv : board.Move),
      (b.make_move mv).castling_rights = b.castling_rights)
    ∧ (castle_position.make_move (board.Move.new 4 12)).castling_rights = "KQkq"
    ∧ (rook_capture_position.make_move (board.Move.new 55 7)).castling_rights = "KQkq" := by
  refine ⟨fun b mv => ?_, by decide!, by decide!⟩
  unfold board.Board.make_move
  cases h : b.squares.getD mv.from' none <;> simp

/-- Claim C6: in rnbqkbnr/ppp1pppp/8/3pP3/8/8/PPPP1PPP/RNBQKBNR w KQkq d6 0 1
the en-passant capture e5-d6 (36 to 43) is among the generated legal moves,
and applying it removes the captured pawn from d5 (35) — the square
(to-file, from-rank) — while the capturing pawn lands on d6 (43). -/
theorem en_passant_capture_removes_pawn_behind :
    board.Move.new 36 43 ∈ ep_position.generate_moves
    ∧ ep_position.squares.getD 35 none = some ⟨.Black, .Pawn⟩
    ∧ (ep_position.make_move (board.Move.new 36 43)).squares.getD 35 none = none
    ∧ (ep_position.make_move (board.Move.new 36 43)).squares.getD 43 none
        = some ⟨.White, .Pawn⟩
    ∧ (ep_position.make_move (board.Move.new 36 43)).squares.getD 36 none = none := by
  decide!

/-- Claim C9 (code bug): Squares::to_algebraic of defs.rs produces an
UPPERCASE file letter and a rank digit that is off by one — index 0 yields
"A2" (not "a1") and index 63 yields "H9" (not "h8") — while the converter of
board.rs (index_to_coord_algebraic) produces the spec's lowercase form, and
parsing that form with Squares::from_algebraic round-trips every square. -/
theorem to_algebraic_diverges_from_spec :
    defs.Squares.to_algebraic 0 = "A2"
    ∧ defs.Squares.to_algebraic 63 = "H9"
    ∧ board.index_to_coord_algebraic 0 = "a1"
    ∧ board.index_to_coord_algebraic 63 = "h8"
    ∧ (∀ i : Fin 64,
        defs.Squares.from_algebraic (board.index_to_coord_algebraic i.val) = i.val) := by
  decide

/-- Claim C10 (code bug): Position::remove_piece XORs the bitboards with the
INVERTED mask !(1 << index), flipping the other 63 bits instead of clearing
bit index. Adding a White pawn on a1 to the empty position and removing it
leaves all_pieces_bitboard equal to 2^64 - 1 instead of restoring 0 (the
mailbox itself is restored correctly). -/
theorem remove_piece_flips_complement_of_bit :
    empty_start_position.all_pieces_bitboard = 0
    ∧ removed_pawn_position.all_pieces_bitboard = 2 ^ 64 - 1
    ∧ removed_pawn_position.all_pieces_bitboard ≠ empty_start_position.all_pieces_bitboard
    ∧ removed_pawn_position.by_color_bitboards ≠ empty_start_position.by_color_bitboards
    ∧ removed_pawn_position.by_type_bitboards ≠ empty_start_position.by_type_bitboards
    ∧ removed_pawn_position.board = empty_start_position.board := by
  decide

/-- Counterexample for C8: Board::from_fen of board.rs accepts the four-field
string "8/8/8/8/8/8/8/8 w - -" and returns a Board, so a field count other
than six does not make every FEN constructor of the repository return an
error. -/
theorem from_fen_accepts_four_fields :
    (splitWhitespace "8/8/8/8/8/8/8/8 w - -").length = 4
    ∧ (board.Board.from_fen "8/8/8/8/8/8/8/8 w - -").isOk = true := by
  decide

/-- Claim C8 as amended: FenParser::parse_fen (fen_parser.rs) returns
InvalidFormat for every input whose whitespace-separated field count is not
six, and accepts the well-formed six-field opening FEN. -/
theorem parse_fen_rejects_non_six_field_input :
    (∀ s : String, (splitWhitespace s).length ≠ 6 →
      fen.parse_fen s = .error .InvalidFormat)
    ∧ (fen.parse_fen "rnbqkbnr/pppppppp/8/8/8/8/PPPPPPPP/RNBQKBNR w KQkq - 0 1").isOk
        = true := by
  constructor
  · intro s h
    unfold fen.parse_fen
    rw [if_pos h]
  · decide

/-- Witness for C8: the one-field string "w" is rejected with InvalidFormat. -/
theorem parse_fen_rejects_non_six_field_input_witness :
    fen.parse_fen "w" = .error .InvalidFormat :=
  parse_fen_rejects_non_six_field_input.1 "w" (by decide)

/- Helper for C3: the while loop of Board::gen_sliding_moves emits, along its
   ray, exactly the spec's ray-walk-with-blocker-halting move list. -/
theorem slide_eq_raySpec (b : board.Board) (index dr df : Nat) :
    ∀ fuel r f, b.slide index dr df fuel r f = board.raySpecMoves b index dr df fuel r f := by
  intro fuel
  induction fuel with
  | zero => intro r f; rfl
  | succ n ih =>
    intro r f
    by_cases h : 8 ≤ r ∧ r < 16 ∧ 8 ≤ f ∧ f < 16
    · cases hs : b.squares.getD (board.coord_to_index (r - 8) (f - 8)) none with
      | some p =>
        simp [board.Board.slide, board.raySpecMoves, board.raySquares, h, hs]
      | none =>
        simp only [board.Board.slide, board.raySpecMoves, board.raySquares, if_pos h, hs]
        rw [ih]
        simp [board.raySpecMoves, hs]
    · simp [board.Board.slide, board.raySpecMoves, board.raySquares, h]

/-- Claim C3 as amended (the claim as stated is refuted by
sliding_lookup_emits_move_beyond_blocker below): for every board, every
sliding-piece square and every direction list, the moves generated by
Board::gen_sliding_moves of board.rs are, along each ray, exactly the empty
squares strictly before the first occupied square, followed by that first
occupied square iff it holds an enemy piece — in particular no generated
sliding move reaches a square beyond the first occupied square of its ray. -/
theorem gen_sliding_moves_matches_ray_spec :
    ∀ (b : board.Board) (index : Nat) (directions : List (Nat × Nat)),
      b.gen_sliding_moves index directions =
        directions.flatMap (fun d =>
          board.raySpecMoves b index d.1 d.2 8
            ((board.index_to_coord index).1 + 8 + d.1 - 1)
            ((board.index_to_coord index).2 + 8 + d.2 - 1)) := by
  intro b index directions
  unfold board.Board.gen_sliding_moves
  simp only [slide_eq_raySpec]

/-- Counterexample for C3: the table-based rook generator of
generators/sliding_moves.rs has no blocker information — with a White rook on
d4 (27) and a White pawn on d2 (11), generate_rook_quiet_moves emits the
quiet move d4-d1 (27 to 3), a move beyond the first occupied square of the
downward ray (the claim's own example says d4-d1 must not be generated). -/
theorem sliding_lookup_emits_move_beyond_blocker :
    rook_blocker_position.board.getD 11 defs.Piece.EMPTY = defs.Piece.WHITE_PAWN
    ∧ rook_blocker_position.board.getD 27 defs.Piece.EMPTY = defs.Piece.WHITE_ROOK
    ∧ (⟨27, 3, .Quiet⟩ : chess_move.Move)
        ∈ sliding_moves.generate_rook_quiet_moves rook_blocker_position 27 := by
  decide

/-- Claim C4 (code bug): no castling move is ever generated. In
r3k2r/8/8/8/8/8/8/R3K2R w KQkq - 0 1 every precondition of the spec holds for
White on both wings (rights present, king and rooks on their home squares,
squares between them empty, and no Black pseudo-move attacks c1, d1, e1, f1
or g1), yet generate_moves contains no king move e1-g1 (4 to 6) and no king
move e1-c1 (4 to 2); gen_king_moves only emits one-step king moves and
move_generator.rs carries an unimplemented castling TODO. -/
theorem castling_moves_never_generated :
    castle_position.castling_rights = "KQkq"
    ∧ castle_position.turn = .White
    ∧ castle_position.squares.getD 4 none = some ⟨.White, .King⟩
    ∧ castle_position.squares.getD 0 none = some ⟨.White, .Rook⟩
    ∧ castle_position.squares.getD 7 none = some ⟨.White, .Rook⟩
    ∧ castle_position.squares.getD 1 none = none
    ∧ castle_position.squares.getD 2 none = none
    ∧ castle_position.squares.getD 3 none = none
    ∧ castle_position.squares.getD 5 none = none
    ∧ castle_position.squares.getD 6 none = none
    ∧ (∀ m ∈ castle_position_black.generate_pseudo_moves,
        m.to' ≠ 2 ∧ m.to' ≠ 3 ∧ m.to' ≠ 4 ∧ m.to' ≠ 5 ∧ m.to' ≠ 6)
    ∧ (∀ m ∈ castle_position.generate_moves,
        ¬(m.from' = 4 ∧ (m.to' = 6 ∨ m.to' = 2))) := by
  decide!

/- Supporting evidence for C1 (the perft identities): the only depth whose
   kernel evaluation fits the proof-checking budget. -/
theorem perft_initial_depth_one : board.initial_position.perft 1 = 20 := by decide!

/- ---- select/update laws of the packed mailbox representation ---- -/

theorem pieceCode_lt16 (v : Option board.Piece) : board.pieceCode v < 16 := by
  rcases v with _ | ⟨c, t⟩
  · decide
  · cases c <;> cases t <;> decide

theorem pieceDecode_pieceCode (v : Option board.Piece) :
    board.pieceDecode (board.pieceCode v) = v := by
  rcases v with _ | ⟨c, t⟩
  · rfl
  · cases c <;> cases t <;> rfl

theorem testBit_15 (j : Nat) : Nat.testBit 15 j = decide (j < 4) := by
  have h : (15 : Nat) = 2 ^ 4 - 1 := by norm_num
  rw [h, Nat.testBit_two_pow_sub_one]

theorem testBit_nibbleMaskAll (j : Nat) :
    board.nibbleMaskAll.testBit j = decide (j < 256) := by
  rw [board.nibbleMaskAll, Nat.testBit_two_pow_sub_one]

theorem window_set_self (a c i : Nat) (hc : c < 16) (h : i < 64) :
    (((a &&& (board.nibbleMaskAll ^^^ (15 <<< (4 * i)))) ||| (c <<< (4 * i))) >>> (4 * i))
        &&& 15 = c := by
  apply Nat.eq_of_testBit_eq
  intro j
  simp only [Nat.testBit_and, Nat.testBit_or, Nat.testBit_shiftRight, Nat.testBit_shiftLeft,
    Nat.testBit_xor, testBit_15, testBit_nibbleMaskAll]
  by_cases hj : j < 4
  · have hle : 4 * i ≤ 4 * i + j := by omega
    have h256 : 4 * i + j < 256 := by omega
    have hwin : 4 * i + j - 4 * i = j := by omega
    simp [hle, hwin, h256, hj]
  · have hlt : c < 2 ^ j := by
      calc c < 16 := hc
      _ = 2 ^ 4 := by norm_num
      _ ≤ 2 ^ j := Nat.pow_le_pow_right (by norm_num) (by omega)
    simp [hj, Nat.testBit_lt_two_pow hlt]

theorem window_set_ne (a c i j : Nat) (hc : c < 16) (hj : j < 64) (hne : i ≠ j) :
    (((a &&& (board.nibbleMaskAll ^^^ (15 <<< (4 * i)))) ||| (c <<< (4 * i))) >>> (4 * j))
        &&& 15 = (a >>> (4 * j)) &&& 15 := by
  apply Nat.eq_of_testBit_eq
  intro k
  simp only [Nat.testBit_and, Nat.testBit_or, Nat.testBit_shiftRight, Nat.testBit_shiftLeft,
    Nat.testBit_xor, testBit_15, testBit_nibbleMaskAll]
  by_cases hk : k < 4
  · have h256 : 4 * j + k < 256 := by omega
    by_cases hle : 4 * i ≤ 4 * j + k
    · have hwin : ¬(4 * j + k - 4 * i < 4) := by omega
      have hcbit : c.testBit (4 * j + k - 4 * i) = false := by
        apply Nat.testBit_lt_two_pow
        calc c < 16 := hc
        _ = 2 ^ 4 := by norm_num
        _ ≤ 2 ^ (4 * j + k - 4 * i) := Nat.pow_le_pow_right (by norm_num) (by omega)
      simp [hle, h256, hk, hcbit, hwin]
    · simp [hle, h256, hk]
  · simp [hk]

/- The packed mailbox behaves as an array: reading a stored square returns the
   stored piece, and storing does not disturb any other square. -/
theorem SquareArray_getD_set_self (a : board.SquareArray) (i : Nat)
    (v : Option board.Piece) (h : i < 64) :
    (a.set i v).getD i none = v := by
  unfold board.SquareArray.set board.SquareArray.getD
  rw [window_set_self a (board.pieceCode v) i (pieceCode_lt16 v) h]
  exact pieceDecode_pieceCode v

theorem SquareArray_getD_set_ne (a : board.SquareArray) (i j : Nat)
    (v : Option board.Piece) (hj : j < 64) (hne : i ≠ j) :
    (a.set i v).getD j none = a.getD j none := by
  unfold board.SquareArray.set board.SquareArray.getD
  rw [window_set_ne a (board.pieceCode v) i j (pieceCode_lt16 v) hj hne]

/- ---- bit lemmas for the shift contract (C7) ---- -/

theorem testBit_FILE_A (i : Nat) :
    bitboard.FILE_A.testBit i = (decide (i < 64) && decide (i % 8 = 0)) := by
  by_cases h : i < 64
  · have hb : ∀ j, j < 64 → bitboard.FILE_A.testBit j = decide (j % 8 = 0) := by decide
    simp [hb i h, h]
  · have hlt : bitboard.FILE_A < 2 ^ i := by
      calc bitboard.FILE_A < 2 ^ 64 := by decide
      _ ≤ 2 ^ i := Nat.pow_le_pow_right (by norm_num) (Nat.le_of_not_lt h)
    simp [Nat.testBit_lt_two_pow hlt, h]

theorem testBit_FILE_H (i : Nat) :
    bitboard.FILE_H.testBit i = (decide (i < 64) && decide (i % 8 = 7)) := by
  by_cases h : i < 64
  · have hb : ∀ j, j < 64 → bitboard.FILE_H.testBit j = decide (j % 8 = 7) := by decide
    simp [hb i h, h]
  · have hlt : bitboard.FILE_H < 2 ^ i := by
      calc bitboard.FILE_H < 2 ^ 64 := by decide
      _ ≤ 2 ^ i := Nat.pow_le_pow_right (by norm_num) (Nat.le_of_not_lt h)
    simp [Nat.testBit_lt_two_pow hlt, h]

theorem testBit_U64_MAX (i : Nat) : bitboard.U64_MAX.testBit i = decide (i < 64) := by
  rw [bitboard.U64_MAX, Nat.testBit_two_pow_sub_one]

theorem testBit_not64_FILE_A (i : Nat) :
    (bitboard.not64 bitboard.FILE_A).testBit i
      = (decide (i < 64) && decide (i % 8 ≠ 0)) := by
  simp only [bitboard.not64, Nat.testBit_xor, testBit_FILE_A, testBit_U64_MAX]
  by_cases h : i < 64 <;> by_cases h8 : i % 8 = 0 <;> simp [h, h8]

theorem testBit_not64_FILE_H (i : Nat) :
    (bitboard.not64 bitboard.FILE_H).testBit i
      = (decide (i < 64) && decide (i % 8 ≠ 7)) := by
  simp only [bitboard.not64, Nat.testBit_xor, testBit_FILE_H, testBit_U64_MAX]
  by_cases h : i < 64 <;> by_cases h8 : i % 8 = 7 <;> simp [h, h8]

/- A masked left shift puts no bit where the mask forbids the source bit. -/
theorem shl_no_wrap (bb M C k : Nat)
    (h : ∀ i, C.testBit i = true → k ≤ i → M.testBit (i - k) = false) :
    ((bb &&& M) <<< k) % 2 ^ 64 &&& C = 0 := by
  apply Nat.eq_of_testBit_eq
  intro i
  simp only [Nat.testBit_and, Nat.testBit_mod_two_pow, Nat.testBit_shiftLeft, Nat.zero_testBit]
  by_cases hc : C.testBit i
  · by_cases hk : k ≤ i
    · simp [h i hc hk]
    · simp [hk]
  · simp [hc]

theorem shr_no_wrap (bb M C k : Nat)
    (h : ∀ i, C.testBit i = true → M.testBit (i + k) = false) :
    (bb &&& M) >>> k &&& C = 0 := by
  apply Nat.eq_of_testBit_eq
  intro i
  simp only [Nat.testBit_and, Nat.testBit_shiftRight, Nat.zero_testBit]
  by_cases hc : C.testBit i
  · have hm := h i hc
    rw [Nat.add_comm] at hm
    simp [hm]
  · simp [hc]

/- shift evaluated on each of the eight canonical direction constants. -/
theorem shift_eval (bb : Nat) :
    bitboard.shift bb chess_move.Direction.UP = (bb <<< 8) % 2 ^ 64
    ∧ bitboard.shift bb chess_move.Direction.DOWN = bb >>> 8
    ∧ bitboard.shift bb chess_move.Direction.RIGHT
        = ((bb &&& bitboard.not64 bitboard.FILE_H) <<< 1) % 2 ^ 64
    ∧ bitboard.shift bb chess_move.Direction.LEFT
        = (bb &&& bitboard.not64 bitboard.FILE_A) >>> 1
    ∧ bitboard.shift bb chess_move.Direction.UP_RIGHT
        = ((bb &&& bitboard.not64 bitboard.FILE_H) <<< 9) % 2 ^ 64
    ∧ bitboard.shift bb chess_move.Direction.UP_LEFT
        = ((bb &&& bitboard.not64 bitboard.FILE_A) <<< 7) % 2 ^ 64
    ∧ bitboard.shift bb chess_move.Direction.DOWN_RIGHT
        = (bb &&& bitboard.not64 bitboard.FILE_H) >>> 7
    ∧ bitboard.shift bb chess_move.Direction.DOWN_LEFT
        = (bb &&& bitboard.not64 bitboard.FILE_A) >>> 9 := by
  refine ⟨?_, ?_, ?_, ?_, ?_, ?_, ?_, ?_⟩ <;>
    simp [bitboard.shift, bitboard.shl64, chess_move.Direction.UP, chess_move.Direction.DOWN,
      chess_move.Direction.RIGHT, chess_move.Direction.LEFT, chess_move.Direction.UP_RIGHT,
      chess_move.Direction.UP_LEFT, chess_move.Direction.DOWN_RIGHT,
      chess_move.Direction.DOWN_LEFT]

/-- Claim C7: for every bitboard, shift matches the masked-shift reference in
each of the eight canonical directions (N, S, E, W, NE, NW, SE, SW map to the
source's UP, DOWN, RIGHT, LEFT, UP_RIGHT, UP_LEFT, DOWN_RIGHT, DOWN_LEFT),
and no shifted bit ever wraps across a board edge: the east-going shifts
never produce a bit on file A and the west-going shifts never produce a bit
on file H. -/
theorem shift_contract (bb : Nat) :
    (bitboard.shift bb chess_move.Direction.UP = (bb <<< 8) % 2 ^ 64
    ∧ bitboard.shift bb chess_move.Direction.DOWN = bb >>> 8
    ∧ bitboard.shift bb chess_move.Direction.RIGHT
        = ((bb &&& bitboard.not64 bitboard.FILE_H) <<< 1) % 2 ^ 64
    ∧ bitboard.shift bb chess_move.Direction.LEFT
        = (bb &&& bitboard.not64 bitboard.FILE_A) >>> 1
    ∧ bitboard.shift bb chess_move.Direction.UP_RIGHT
        = ((bb &&& bitboard.not64 bitboard.FILE_H) <<< 9) % 2 ^ 64
    ∧ bitboard.shift bb chess_move.Direction.UP_LEFT
        = ((bb &&& bitboard.not64 bitboard.FILE_A) <<< 7) % 2 ^ 64
    ∧ bitboard.shift bb chess_move.Direction.DOWN_RIGHT
        = (bb &&& bitboard.not64 bitboard.FILE_H) >>> 7
    ∧ bitboard.shift bb chess_move.Direction.DOWN_LEFT
        = (bb &&& bitboard.not64 bitboard.FILE_A) >>> 9)
    ∧ (bitboard.shift bb chess_move.Direction.RIGHT &&& bitboard.FILE_A = 0
    ∧ bitboard.shift bb chess_move.Direction.LEFT &&& bitboard.FILE_H = 0
    ∧ bitboard.shift bb chess_move.Direction.UP_RIGHT &&& bitboard.FILE_A = 0
    ∧ bitboard.shift bb chess_move.Direction.UP_LEFT &&& bitboard.FILE_H = 0
    ∧ bitboard.shift bb chess_move.Direction.DOWN_RIGHT &&& bitboard.FILE_A = 0
    ∧ bitboard.shift bb chess_move.Direction.DOWN_LEFT &&& bitboard.FILE_H = 0) := by
  refine ⟨shift_eval bb, ?_, ?_, ?_, ?_, ?_, ?_⟩
  · rw [(shift_eval bb).2.2.1]
    apply shl_no_wrap
    intro i hc hk
    rw [testBit_FILE_A] at hc
    simp only [Bool.and_eq_true, decide_eq_true_eq] at hc
    obtain ⟨h64, h8⟩ := hc
    rw [testBit_not64_FILE_H]
    simp only [Bool.and_eq_false_iff, decide_eq_false_iff_not, Decidable.not_not]
    right
    omega
  · rw [(shift_eval bb).2.2.2.1]
    apply shr_no_wrap
    intro i hc
    rw [testBit_FILE_H] at hc
    simp only [Bool.and_eq_true, decide_eq_true_eq] at hc
    obtain ⟨h64, h8⟩ := hc
    rw [testBit_not64_FILE_A]
    simp only [Bool.and_eq_false_iff, decide_eq_false_iff_not, Decidable.not_not]
    right
    omega
  · rw [(shift_eval bb).2.2.2.2.1]
    apply shl_no_wrap
    intro i hc hk
    rw [testBit_FILE_A] at hc
    simp only [Bool.and_eq_true, decide_eq_true_eq] at hc
    obtain ⟨h64, h8⟩ := hc
    rw [testBit_not64_FILE_H]
    simp only [Bool.and_eq_false_iff, decide_eq_false_iff_not, Decidable.not_not]
    right
    omega
  · rw [(shift_eval bb).2.2.2.2.2.1]
    apply shl_no_wrap
    intro i hc hk
    rw [testBit_FILE_H] at hc
    simp only [Bool.and_eq_true, decide_eq_true_eq] at hc
    obtain ⟨h64, h8⟩ := hc
    rw [testBit_not64_FILE_A]
    simp only [Bool.and_eq_false_iff, decide_eq_false_iff_not, Decidable.not_not]
    right
    omega
  · rw [(shift_eval bb).2.2.2.2.2.2.1]
    apply shr_no_wrap
    intro i hc
    rw [testBit_FILE_A] at hc
    simp only [Bool.and_eq_true, decide_eq_true_eq] at hc
    obtain ⟨h64, h8⟩ := hc
    rw [testBit_not64_FILE_H]
    simp only [Bool.and_eq_false_iff, decide_eq_false_iff_not, Decidable.not_not]
    right
    omega
  · rw [(shift_eval bb).2.2.2.2.2.2.2]
    apply shr_no_wrap
    intro i hc
    rw [testBit_FILE_H] at hc
    simp only [Bool.and_eq_true, decide_eq_true_eq] at hc
    obtain ⟨h64, h8⟩ := hc
    rw [testBit_not64_FILE_A]
    simp only [Bool.and_eq_false_iff, decide_eq_false_iff_not, Decidable.not_not]
    right
    omega

end ChessBot
